import Mathlib

/-!
Verification development for the watchfiles/watchgod repository.

Embedded here:
* the debounced process supervisor (`run_process` / `arun_process` and the
  liveness/termination controller of `watchfiles/run.py`; that module is not
  present under `src/`, so it is modelled from the specification, with the
  tests in `src/tests/test_run_process.py` used as concrete oracles);
* the `WATCHFILES_CHANGES` environment-variable serialization of
  `start_process`;
* the CLI setup phase of `src/watchfiles/cli.py`;
* the legacy polling watch loop of `src/watchgod/main.py`.
-/

namespace Watchfiles

/-- Kind of a filesystem change event (`watchfiles.main.Change`):
added = 1, modified = 2, deleted = 3. -/
inductive Change
  | added
  | modified
  | deleted
deriving DecidableEq

/-- Lowercase name of a change kind (`Change.raw_str` in the source). -/
def Change.raw_str : Change → String
  | .added => "added"
  | .modified => "modified"
  | .deleted => "deleted"

/-- A single change event: a (kind, path) pair. -/
abbrev ChangeEvent := Change × String

/-- A change batch, kept in first-seen (insertion) order. -/
abbrev Batch := List ChangeEvent

/-- Modelled from the spec: observable behaviour of one supervised child
process, as seen by the liveness/termination controller of `watchfiles/run.py`
(module absent from `src/`; behaviour fixed by §4.3 of the spec and by
`FakeProcess` in `src/tests/test_run_process.py`).
`alive` is what `is_alive()` reports when the controller checks liveness;
`gracefulStops` says whether the graceful signal stops the child within the
bounded grace period (exit code observed after the bounded join);
`exitcode` is the exit code the handle reports. -/
structure ChildBehavior where
  alive : Bool
  gracefulStops : Bool
  exitcode : Option Int
deriving DecidableEq

/-- A signal sent by the termination controller. -/
inductive Sig
  | graceful
  | forceful
deriving DecidableEq

/-- Atomic observable events of a supervisor run. `joinWait true` is the
bounded grace-period wait, `joinWait false` the blocking join for exit.
`reaped` marks the current child reaching the REAPED state. -/
inductive Ev
  | launch (changes : Batch)
  | sig (s : Sig)
  | joinWait (bounded : Bool)
  | reaped
  | cb (changes : Batch)
deriving DecidableEq

def Ev.isLaunch : Ev → Bool
  | .launch _ => true
  | _ => false

def Ev.isSig : Ev → Bool
  | .sig _ => true
  | _ => false

def Ev.isReaped : Ev → Bool
  | .reaped => true
  | _ => false

def Ev.cbPayload : Ev → Option Batch
  | .cb b => some b
  | _ => none

/-- Modelled from the spec (§4.3, `watchfiles/run.py` absent from `src/`):
one invocation of the liveness/termination controller on the current child.
If the child is alive: send the graceful signal, wait up to the bounded grace
period; if it stopped, it is reaped; otherwise send the forceful signal and
block until exit, then reap. If the child is already not alive, skip straight
to REAPED without signalling. -/
def stop_process (c : ChildBehavior) : List Ev :=
  match c.alive, c.gracefulStops with
  | true, true => [.sig .graceful, .joinWait true, .reaped]
  | true, false => [.sig .graceful, .joinWait true, .sig .forceful, .joinWait false, .reaped]
  | false, _ => [.reaped]

/-- One result of polling the debounce aggregator, as seen by the supervisor
loop: a (possibly empty) coalesced batch, or an external interruption. -/
inductive Poll
  | batch (changes : Batch)
  | interrupt
deriving DecidableEq

/-- Result of the supervisor loop: the exit code of a child that died on its
own, or the number of restarts performed when termination was external. -/
inductive RunResult
  | childExit (code : Option Int)
  | restarts (n : Nat)
deriving DecidableEq

/-- Modelled from the spec (§4.4, `watchfiles/run.py` absent from `src/`):
the supervisor loop after the initial launch. `childAt i` is the behaviour of
the i-th launched child (the current child on entry is `childAt idx`),
`polls` the stream delivered by the debounce aggregator, `n` the restarts so
far. On stream end or external interruption the final cleanup terminates the
active child and the restart count is returned. On an empty batch liveness is
re-checked: a child that died by itself ends the loop with its exit code (the
controller skips to REAPED, no signal). On a non-empty batch the current
child is terminated, the callback invoked (its result discarded), and a new
child launched with the batch. -/
def superviseFrom {α : Type} (cb : Batch → α) (childAt : Nat → ChildBehavior) :
    Nat → List Poll → Nat → List Ev × RunResult
  | idx, [], n => (stop_process (childAt idx), .restarts n)
  | idx, .interrupt :: _, n => (stop_process (childAt idx), .restarts n)
  | idx, .batch [] :: rest, n =>
    if (childAt idx).alive then superviseFrom cb childAt idx rest n
    else (stop_process (childAt idx), .childExit (childAt idx).exitcode)
  | idx, .batch (e :: es) :: rest, n =>
    let _ := cb (e :: es)
    let r := superviseFrom cb childAt (idx + 1) rest (n + 1)
    (stop_process (childAt idx) ++ .cb (e :: es) :: .launch (e :: es) :: r.1, r.2)

/-- Modelled from the spec (§4.4): `run_process` / `arun_process`. Launches
the child with an empty initial change set, then runs the supervisor loop.
Returns the full event trace and the loop result. The callback `cb` is
invoked once per non-empty batch; its return value is discarded. -/
def run_process {α : Type} (cb : Batch → α) (childAt : Nat → ChildBehavior)
    (polls : List Poll) : List Ev × RunResult :=
  let r := superviseFrom cb childAt 0 polls 0
  (.launch [] :: r.1, r.2)

/-- Number of child launches recorded in a trace. -/
def countLaunches (t : List Ev) : Nat := t.countP fun e => e.isLaunch

/-- Number of termination sequences run to REAPED recorded in a trace. -/
def termSequences (t : List Ev) : Nat := t.countP fun e => e.isReaped

/-- Number of signals sent in a trace. -/
def sigCount (t : List Ev) : Nat := t.countP fun e => e.isSig

/-- The batches passed to the user callback, in invocation order. -/
def cbCalls (t : List Ev) : List Batch := t.filterMap Ev.cbPayload

/-- Signals sent by one controller invocation, in order. -/
def stopSignals (c : ChildBehavior) : List Sig :=
  (stop_process c).filterMap fun e =>
    match e with
    | .sig s => some s
    | _ => none

/-- Child-slot discipline checker: scans a trace with the number of currently
running children (`r`). A launch is legal only when no child is running (the
previous one already reaped) and makes one child run; a reap is legal only
when exactly one child is running. Returns `true` iff the whole trace keeps
at most one live child and reaps it before every new launch. -/
def traceOk : Nat → List Ev → Bool
  | _, [] => true
  | 0, .launch _ :: t => traceOk 1 t
  | _ + 1, .launch _ :: _ => false
  | 1, .reaped :: t => traceOk 0 t
  | 0, .reaped :: _ => false
  | _ + 2, .reaped :: _ => false
  | r, .sig _ :: t => traceOk r t
  | r, .joinWait _ :: t => traceOk r t
  | r, .cb _ :: t => traceOk r t

lemma stop_process_dead (c : ChildBehavior) (h : c.alive = false) :
    stop_process c = [Ev.reaped] := by
  rcases c with ⟨a, g, e⟩
  cases a
  · rfl
  · cases h

lemma stop_process_traceOk (c : ChildBehavior) : traceOk 1 (stop_process c) = true := by
  rcases c with ⟨a, g, e⟩
  cases a <;> cases g <;> rfl

lemma countLaunches_stop (c : ChildBehavior) : countLaunches (stop_process c) = 0 := by
  rcases c with ⟨a, g, e⟩
  cases a <;> cases g <;> rfl

lemma termSequences_stop (c : ChildBehavior) : termSequences (stop_process c) = 1 := by
  rcases c with ⟨a, g, e⟩
  cases a <;> cases g <;> rfl

lemma cbCalls_stop (c : ChildBehavior) : cbCalls (stop_process c) = [] := by
  rcases c with ⟨a, g, e⟩
  cases a <;> cases g <;> rfl

lemma sigCount_stop_dead (c : ChildBehavior) (h : c.alive = false) :
    sigCount (stop_process c) = 0 := by
  rw [stop_process_dead c h]
  rfl

lemma traceOk_superviseFrom {α : Type} (cb : Batch → α) (childAt : Nat → ChildBehavior) :
    ∀ (polls : List Poll) (idx n : Nat),
      traceOk 1 (superviseFrom cb childAt idx polls n).1 = true := by
  intro polls
  induction polls with
  | nil => intro idx n; exact stop_process_traceOk _
  | cons p rest ih =>
    intro idx n
    cases p with
    | interrupt => exact stop_process_traceOk _
    | batch b =>
      cases b with
      | nil =>
        by_cases h : (childAt idx).alive = true
        · simpa [superviseFrom, h] using ih idx n
        · simp only [superviseFrom, h, if_false]
          exact stop_process_traceOk _
      | cons e es =>
        cases h1 : (childAt idx).alive <;> cases h2 : (childAt idx).gracefulStops <;>
          simp [superviseFrom, stop_process, h1, h2, traceOk, ih (idx + 1) (n + 1)]

lemma countLaunches_append (a b : List Ev) :
    countLaunches (a ++ b) = countLaunches a + countLaunches b :=
  List.countP_append _ _ _

lemma countLaunches_cons (e : Ev) (t : List Ev) :
    countLaunches (e :: t) = countLaunches t + (if e.isLaunch then 1 else 0) := by
  simp [countLaunches, List.countP_cons]

lemma termSequences_append (a b : List Ev) :
    termSequences (a ++ b) = termSequences a + termSequences b :=
  List.countP_append _ _ _

lemma termSequences_cons (e : Ev) (t : List Ev) :
    termSequences (e :: t) = termSequences t + (if e.isReaped then 1 else 0) := by
  simp [termSequences, List.countP_cons]

lemma sigCount_append (a b : List Ev) :
    sigCount (a ++ b) = sigCount a + sigCount b :=
  List.countP_append _ _ _

lemma sigCount_cons (e : Ev) (t : List Ev) :
    sigCount (e :: t) = sigCount t + (if e.isSig then 1 else 0) := by
  simp [sigCount, List.countP_cons]

lemma cbCalls_append (a b : List Ev) :
    cbCalls (a ++ b) = cbCalls a ++ cbCalls b :=
  List.filterMap_append _ _ _

lemma cbCalls_cons (e : Ev) (t : List Ev) :
    cbCalls (e :: t) = (e.cbPayload.toList) ++ cbCalls t := by
  cases e <;> simp [cbCalls, Ev.cbPayload]

lemma superviseFrom_batches {α : Type} (cb : Batch → α) (childAt : Nat → ChildBehavior) :
    ∀ (bs : List Batch) (idx n : Nat), (∀ b ∈ bs, b ≠ []) →
      countLaunches (superviseFrom cb childAt idx (bs.map Poll.batch) n).1 = bs.length ∧
      termSequences (superviseFrom cb childAt idx (bs.map Poll.batch) n).1 = bs.length + 1 ∧
      cbCalls (superviseFrom cb childAt idx (bs.map Poll.batch) n).1 = bs ∧
      (superviseFrom cb childAt idx (bs.map Poll.batch) n).2 = RunResult.restarts (n + bs.length) := by
  intro bs
  induction bs with
  | nil =>
    intro idx n _
    refine ⟨countLaunches_stop _, ?_, cbCalls_stop _, rfl⟩
    simpa using termSequences_stop (childAt idx)
  | cons b bs ih =>
    intro idx n hne
    obtain ⟨e, es, rfl⟩ : ∃ e es, b = e :: es := by
      cases b with
      | nil => exact absurd rfl (hne [] (List.mem_cons_self _ _))
      | cons e es => exact ⟨e, es, rfl⟩
    have hbs : ∀ x ∈ bs, x ≠ [] := fun x hx => hne x (List.mem_cons_of_mem _ hx)
    obtain ⟨ih1, ih2, ih3, ih4⟩ := ih (idx + 1) (n + 1) hbs
    refine ⟨?_, ?_, ?_, ?_⟩
    · simp only [List.map_cons, superviseFrom, countLaunches_append, countLaunches_cons,
        countLaunches_stop, ih1, Ev.isLaunch, List.length_cons]
      simp
    · simp only [List.map_cons, superviseFrom, termSequences_append, termSequences_cons,
        termSequences_stop, ih2, Ev.isReaped, List.length_cons]
      simp only [if_true, if_false, Bool.false_eq_true]
      omega
    · simp only [List.map_cons, superviseFrom, cbCalls_append, cbCalls_cons,
        cbCalls_stop, ih3, Ev.cbPayload]
      simp
    · simp only [superviseFrom, List.map_cons]
      rw [ih4]
      simp [Nat.add_assoc, Nat.add_comm 1 bs.length]

/-- C1: for every execution of the supervisor loop (`run_process` /
`arun_process`), at most one supervised child is running at any time: the
trace of every run satisfies the child-slot discipline `traceOk 0`, which
permits a launch only when the previously launched child has already reached
REAPED, and permits a reap only of the single running child. -/
theorem C1_at_most_one_child {α : Type} (cb : Batch → α) (childAt : Nat → ChildBehavior)
    (polls : List Poll) : traceOk 0 (run_process cb childAt polls).1 = true := by
  have h := traceOk_superviseFrom cb childAt polls 0 0
  simpa [run_process, traceOk] using h

/-- Child that is alive and stops on the graceful signal, exit code 1
(`FakeProcess()` in `src/tests/test_run_process.py`). -/
def aliveChild : ChildBehavior := ⟨true, true, some 1⟩

/-- Child that already exited on its own, exit code 1
(`FakeProcess(is_alive=False)` in the tests). -/
def deadChild : ChildBehavior := ⟨false, true, some 1⟩

/-- Child that is alive and survives the graceful signal
(`FakeProcess(exitcode=None)` in the tests). -/
def stubbornChild : ChildBehavior := ⟨true, false, none⟩

/-- The batch delivering `(added, "/f.py")`. -/
def batchF : Batch := [(Change.added, "/f.py")]

/-- The batch delivering `(added, "/g.py")`. -/
def batchG : Batch := [(Change.added, "/g.py")]

lemma sigCount_superviseFrom_dead {α : Type} (cb : Batch → α) (childAt : Nat → ChildBehavior)
    (hdead : ∀ i, (childAt i).alive = false) :
    ∀ (polls : List Poll) (idx n : Nat),
      sigCount (superviseFrom cb childAt idx polls n).1 = 0 := by
  intro polls
  induction polls with
  | nil => intro idx n; exact sigCount_stop_dead _ (hdead idx)
  | cons p rest ih =>
    intro idx n
    cases p with
    | interrupt => exact sigCount_stop_dead _ (hdead idx)
    | batch b =>
      cases b with
      | nil =>
        simp only [superviseFrom, hdead idx, Bool.false_eq_true, if_false]
        exact sigCount_stop_dead _ (hdead idx)
      | cons e es =>
        simp only [superviseFrom, sigCount_append, sigCount_cons,
          sigCount_stop_dead _ (hdead idx), ih (idx + 1) (n + 1), Ev.isSig]
        rfl

/-- C2 is false as stated: for the batch stream `[{(added,"/f.py")}, {(added,"/g.py")}]`
with children that always exit on their own right after each batch, the loop
performs 2 restarts and the final child is not live, so the claim predicts
2 + 0 = 2 termination sequences; but the controller is invoked three times
(once per restart plus the unconditional final cleanup), each invocation
running to REAPED, so 3 termination sequences are performed. -/
theorem C2_counterexample :
    termSequences (run_process (fun _ => (0 : Nat)) (fun _ => deadChild)
      [Poll.batch batchF, Poll.batch batchG]).1 = 3 ∧
    (run_process (fun _ => (0 : Nat)) (fun _ => deadChild)
      [Poll.batch batchF, Poll.batch batchG]).2 = RunResult.restarts 2 ∧
    deadChild.alive = false ∧
    termSequences (run_process (fun _ => (0 : Nat)) (fun _ => deadChild)
      [Poll.batch batchF, Poll.batch batchG]).1 ≠ 2 + (if deadChild.alive then 1 else 0) := by
  refine ⟨rfl, rfl, rfl, ?_⟩
  decide

/-- The non-empty batches the supervisor loop observes on a poll stream
(spec §4.4): observation ends at stream end, at an external interruption,
or at an empty batch whose liveness re-check finds the current child dead.
An empty batch with a live child is skipped; a non-empty batch is observed
and advances to the next launched child. -/
def observedBatches (childAt : Nat → ChildBehavior) : Nat → List Poll → List Batch
  | _, [] => []
  | _, .interrupt :: _ => []
  | idx, .batch [] :: rest =>
    if (childAt idx).alive then observedBatches childAt idx rest else []
  | idx, .batch (e :: es) :: rest => (e :: es) :: observedBatches childAt (idx + 1) rest

lemma ite_false_eq_true (a b : Nat) : (if false = true then a else b) = b := rfl

lemma ite_true_eq_true (a b : Nat) : (if true = true then a else b) = a := rfl

lemma superviseFrom_observed {α : Type} (cb : Batch → α) (childAt : Nat → ChildBehavior) :
    ∀ (polls : List Poll) (idx n : Nat),
      countLaunches (superviseFrom cb childAt idx polls n).1 =
        (observedBatches childAt idx polls).length ∧
      termSequences (superviseFrom cb childAt idx polls n).1 =
        (observedBatches childAt idx polls).length + 1 ∧
      cbCalls (superviseFrom cb childAt idx polls n).1 = observedBatches childAt idx polls ∧
      ((superviseFrom cb childAt idx polls n).2 =
          RunResult.restarts (n + (observedBatches childAt idx polls).length) ∨
        ∃ code, (superviseFrom cb childAt idx polls n).2 = RunResult.childExit code) := by
  intro polls
  induction polls with
  | nil =>
    intro idx n
    refine ⟨countLaunches_stop _, ?_, cbCalls_stop _, Or.inl ?_⟩
    · simpa [observedBatches] using termSequences_stop (childAt idx)
    · simp [observedBatches, superviseFrom]
  | cons p rest ih =>
    intro idx n
    cases p with
    | interrupt =>
      refine ⟨countLaunches_stop _, ?_, cbCalls_stop _, Or.inl ?_⟩
      · simpa [observedBatches] using termSequences_stop (childAt idx)
      · simp [observedBatches, superviseFrom]
    | batch b =>
      cases b with
      | nil =>
        by_cases h : (childAt idx).alive = true
        · simpa [superviseFrom, observedBatches, h] using ih idx n
        · have hb : (childAt idx).alive = false := by
            cases hh : (childAt idx).alive
            · rfl
            · exact absurd hh h
          have hstep : superviseFrom cb childAt idx (Poll.batch [] :: rest) n =
              ([Ev.reaped], RunResult.childExit (childAt idx).exitcode) := by
            simp only [superviseFrom, hb, Bool.false_eq_true, if_false,
              stop_process_dead _ hb]
          have hobs : observedBatches childAt idx (Poll.batch [] :: rest) = [] := by
            simp [observedBatches, hb]
          rw [hstep, hobs]
          exact ⟨rfl, rfl, rfl, Or.inr ⟨(childAt idx).exitcode, rfl⟩⟩
      | cons e es =>
        obtain ⟨ih1, ih2, ih3, ih4⟩ := ih (idx + 1) (n + 1)
        refine ⟨?_, ?_, ?_, ?_⟩
        · simp only [superviseFrom, countLaunches_append, countLaunches_cons,
            countLaunches_stop, ih1, Ev.isLaunch, observedBatches, List.length_cons,
            ite_true_eq_true, ite_false_eq_true, if_true, if_false]
          omega
        · simp only [superviseFrom, termSequences_append, termSequences_cons,
            termSequences_stop, ih2, Ev.isReaped, observedBatches, List.length_cons,
            ite_true_eq_true, ite_false_eq_true, if_true, if_false]
          omega
        · simp only [superviseFrom, cbCalls_append, cbCalls_cons, cbCalls_stop,
            ih3, Ev.cbPayload, observedBatches]
          simp
        · rcases ih4 with h | ⟨code, hc⟩
          · left
            simp only [superviseFrom, observedBatches, List.length_cons]
            rw [h]
            exact congrArg RunResult.restarts (by omega)
          · right
            exact ⟨code, by simp only [superviseFrom]; exact hc⟩

/-- C2 (amended): for every finite stream of change batches processed by the
supervisor loop (empty batches included), the number of child launches
equals 1 (the initial launch) plus the number of non-empty batches observed
before the loop stops, and the number of termination sequences run to
REAPED equals the number of restarts plus one — the final cleanup always
runs, reaping trivially (without signalling) when the child is already
dead. The callbacks record exactly the observed batches (so restarts =
observed non-empty batches), and the loop returns that restart count unless
a child died on its own, in which case its exit code is returned. In
particular a stream of one batch with a never-exiting child gives 2
launches, 2 termination sequences and restart count 1. -/
theorem C2_launch_and_termination_counts {α : Type} (cb : Batch → α)
    (childAt : Nat → ChildBehavior) (polls : List Poll) :
    countLaunches (run_process cb childAt polls).1 =
      1 + (observedBatches childAt 0 polls).length ∧
    termSequences (run_process cb childAt polls).1 =
      (observedBatches childAt 0 polls).length + 1 ∧
    cbCalls (run_process cb childAt polls).1 = observedBatches childAt 0 polls ∧
    ((run_process cb childAt polls).2 =
        RunResult.restarts (observedBatches childAt 0 polls).length ∨
      ∃ code, (run_process cb childAt polls).2 = RunResult.childExit code) ∧
    countLaunches (run_process (fun _ => (0 : Nat)) (fun _ => aliveChild) [Poll.batch batchF]).1 = 2 ∧
    termSequences (run_process (fun _ => (0 : Nat)) (fun _ => aliveChild) [Poll.batch batchF]).1 = 2 ∧
    (run_process (fun _ => (0 : Nat)) (fun _ => aliveChild) [Poll.batch batchF]).2 = RunResult.restarts 1 := by
  obtain ⟨h1, h2, h3, h4⟩ := superviseFrom_observed cb childAt polls 0 0
  refine ⟨?_, ?_, ?_, ?_, rfl, rfl, rfl⟩
  · simp only [run_process, countLaunches_cons, h1, Ev.isLaunch, if_true]
    omega
  · simp only [run_process, termSequences_cons, h2, Ev.isReaped]
    rfl
  · simp only [run_process, cbCalls_cons, Ev.cbPayload, Option.toList, List.nil_append]
    exact h3
  · rcases h4 with h | ⟨code, hc⟩
    · left
      simpa [run_process] using h
    · right
      exact ⟨code, by simpa [run_process] using hc⟩

/-- C3: for a restart whose current child is alive, if the graceful signal
stops the child within the grace period exactly one signal is sent in that
termination sequence; otherwise exactly two signals are sent, graceful first
then forceful, the forceful signal being followed by the blocking join for
exit and the reap. -/
theorem C3_signal_escalation (c : ChildBehavior) (halive : c.alive = true) :
    (c.gracefulStops = true →
      stop_process c = [Ev.sig Sig.graceful, Ev.joinWait true, Ev.reaped] ∧
      stopSignals c = [Sig.graceful]) ∧
    (c.gracefulStops = false →
      stop_process c = [Ev.sig Sig.graceful, Ev.joinWait true, Ev.sig Sig.forceful,
        Ev.joinWait false, Ev.reaped] ∧
      stopSignals c = [Sig.graceful, Sig.forceful]) := by
  rcases c with ⟨a, g, e⟩
  cases a
  · simp at halive
  · cases g
    · exact ⟨fun h => by simp at h, fun _ => ⟨rfl, rfl⟩⟩
    · exact ⟨fun _ => ⟨rfl, rfl⟩, fun h => by simp at h⟩

/-- Witness for C3 at the two live child behaviours of the tests. -/
theorem C3_signal_escalation_witness :
    stopSignals aliveChild = [Sig.graceful] ∧
    stopSignals stubbornChild = [Sig.graceful, Sig.forceful] :=
  ⟨((C3_signal_escalation aliveChild rfl).1 rfl).2,
   ((C3_signal_escalation stubbornChild rfl).2 rfl).2⟩

/-- C4: the termination controller never signals a process that is not
alive: a termination request on a dead child skips straight to REAPED with
zero signals; a whole run in which every child has exited on its own sends
zero signals; and the concrete two-batch scenario gives 3 launches, 0
signals and restart count 2. -/
theorem C4_no_signal_to_dead :
    (∀ c : ChildBehavior, c.alive = false →
      stop_process c = [Ev.reaped] ∧ stopSignals c = []) ∧
    (∀ (α : Type) (cb : Batch → α) (childAt : Nat → ChildBehavior),
      (∀ i, (childAt i).alive = false) →
      ∀ polls : List Poll, sigCount (run_process cb childAt polls).1 = 0) ∧
    (countLaunches (run_process (fun _ => (0 : Nat)) (fun _ => deadChild)
        [Poll.batch batchF, Poll.batch batchG]).1 = 3 ∧
      sigCount (run_process (fun _ => (0 : Nat)) (fun _ => deadChild)
        [Poll.batch batchF, Poll.batch batchG]).1 = 0 ∧
      (run_process (fun _ => (0 : Nat)) (fun _ => deadChild)
        [Poll.batch batchF, Poll.batch batchG]).2 = RunResult.restarts 2) := by
  refine ⟨?_, ?_, rfl, rfl, rfl⟩
  · intro c h
    refine ⟨stop_process_dead c h, ?_⟩
    rw [stopSignals, stop_process_dead c h]
    rfl
  · intro α cb childAt hdead polls
    have h := sigCount_superviseFrom_dead cb childAt hdead polls 0 0
    simpa [run_process, sigCount_cons, Ev.isSig] using h

/-- Witness for C4 at the dead child of the tests. -/
theorem C4_no_signal_to_dead_witness :
    stop_process deadChild = [Ev.reaped] ∧
    sigCount (run_process (fun _ => (0 : Nat)) (fun _ => deadChild) [Poll.batch batchF]).1 = 0 :=
  ⟨(C4_no_signal_to_dead.1 deadChild rfl).1,
   C4_no_signal_to_dead.2.1 Nat (fun _ => (0 : Nat)) (fun _ => deadChild)
     (fun _ => rfl) [Poll.batch batchF]⟩

/-- C6: if the supervisor loop observes an empty batch while the current
child is no longer alive, the loop stops and returns that child's exit code;
the only event is the reap, so no termination signal is issued to it. -/
theorem C6_dead_child_empty_batch {α : Type} (cb : Batch → α)
    (childAt : Nat → ChildBehavior) (idx n : Nat) (rest : List Poll)
    (h : (childAt idx).alive = false) :
    superviseFrom cb childAt idx (Poll.batch [] :: rest) n =
      ([Ev.reaped], RunResult.childExit (childAt idx).exitcode) ∧
    sigCount (superviseFrom cb childAt idx (Poll.batch [] :: rest) n).1 = 0 := by
  have hmain : superviseFrom cb childAt idx (Poll.batch [] :: rest) n =
      ([Ev.reaped], RunResult.childExit (childAt idx).exitcode) := by
    simp only [superviseFrom, h, Bool.false_eq_true, if_false, stop_process_dead _ h]
  exact ⟨hmain, by rw [hmain]; rfl⟩

/-- Witness for C6 with the dead child of the tests. -/
theorem C6_dead_child_empty_batch_witness :
    superviseFrom (fun _ => (0 : Nat)) (fun _ => deadChild) 0 [Poll.batch []] 0 =
      ([Ev.reaped], RunResult.childExit (some 1)) :=
  (C6_dead_child_empty_batch (fun _ => (0 : Nat)) (fun _ => deadChild) 0 0 [] rfl).1

lemma superviseFrom_cb_indep {α β : Type} (cb1 : Batch → α) (cb2 : Batch → β)
    (childAt : Nat → ChildBehavior) :
    ∀ (polls : List Poll) (idx n : Nat),
      superviseFrom cb1 childAt idx polls n = superviseFrom cb2 childAt idx polls n := by
  intro polls
  induction polls with
  | nil => intro idx n; rfl
  | cons p rest ih =>
    intro idx n
    cases p with
    | interrupt => rfl
    | batch b =>
      cases b with
      | nil => simp only [superviseFrom, ih]
      | cons e es => simp only [superviseFrom, ih]

/-- C7: for every stream of non-empty batches the loop invokes the user
callback exactly once per batch, the i-th invocation receiving the i-th
batch (so the number of invocations equals the restart count), and the
callback's return value is ignored: the run is identical for any two
callbacks of any result types. -/
theorem C7_callback_per_batch {α : Type} (cb : Batch → α)
    (childAt : Nat → ChildBehavior) (bs : List Batch) (hne : ∀ b ∈ bs, b ≠ []) :
    cbCalls (run_process cb childAt (bs.map Poll.batch)).1 = bs ∧
    (cbCalls (run_process cb childAt (bs.map Poll.batch)).1).length = bs.length ∧
    (run_process cb childAt (bs.map Poll.batch)).2 = RunResult.restarts bs.length ∧
    (∀ (β : Type) (cb2 : Batch → β),
      run_process cb2 childAt (bs.map Poll.batch) = run_process cb childAt (bs.map Poll.batch)) := by
  obtain ⟨_, _, h3, h4⟩ := superviseFrom_batches cb childAt bs 0 0 hne
  have hc : cbCalls (run_process cb childAt (bs.map Poll.batch)).1 = bs := by
    simp only [run_process, cbCalls_cons, Ev.cbPayload, Option.toList, List.nil_append]
    exact h3
  refine ⟨hc, by rw [hc], by simpa [run_process] using h4, ?_⟩
  intro β cb2
  simp only [run_process, superviseFrom_cb_indep cb2 cb childAt]

/-- Witness for C7 at the one-batch stream of the tests. -/
theorem C7_callback_per_batch_witness :
    cbCalls (run_process (fun _ => (0 : Nat)) (fun _ => aliveChild)
      ([batchF].map Poll.batch)).1 = [batchF] :=
  (C7_callback_per_batch (fun _ => (0 : Nat)) (fun _ => aliveChild) [batchF] (by decide)).1

/-- JSON entry for one change event: the two-element array
`[kind_name, path]`. -/
def changeJsonEntry (c : ChangeEvent) : List String := [c.1.raw_str, c.2]

/-- Render a JSON string literal (paths here contain no characters needing
escapes). -/
def renderJsonString (s : String) : String := "\"" ++ s ++ "\""

/-- Render a JSON array of strings with the separators `json.dumps` uses. -/
def renderStringArray (xs : List String) : String :=
  "[" ++ String.intercalate ", " (xs.map renderJsonString) ++ "]"

/-- Render a JSON array of arrays of strings with the separators
`json.dumps` uses. -/
def renderArrayOfArrays (xss : List (List String)) : String :=
  "[" ++ String.intercalate ", " (xss.map renderStringArray) ++ "]"

/-- Modelled from the spec: the value `start_process` of `watchfiles/run.py`
(module absent from `src/`) stores in the `WATCHFILES_CHANGES` environment
variable — a JSON array of two-element `[kind_name, path]` arrays in the
iteration order of `changes`; `none` (initial launch, no changes given)
yields the empty JSON array. -/
def changes_env_var : Option (List ChangeEvent) → String
  | none => "[]"
  | some cs => renderArrayOfArrays (cs.map changeJsonEntry)

/-- The ordered batch of `test_start_process_env`:
(added, "a.py"), (modified, "b.py"), (deleted, "c.py"). -/
def batchABC : List ChangeEvent :=
  [(Change.added, "a.py"), (Change.modified, "b.py"), (Change.deleted, "c.py")]

/-- C5: `start_process` serializes `changes` into `WATCHFILES_CHANGES` as a
JSON array of two-element `[kind_name, path]` arrays in iteration order,
with lowercase kind names; no changes (initial launch) gives `[]`; the
ordered example batch decodes to
`[["added","a.py"],["modified","b.py"],["deleted","c.py"]]` and renders to
the exact string the test expects. -/
theorem C5_changes_env_serialization :
    changes_env_var none = "[]" ∧
    batchABC.map changeJsonEntry =
      [["added", "a.py"], ["modified", "b.py"], ["deleted", "c.py"]] ∧
    changes_env_var (some batchABC) =
      "[[\"added\", \"a.py\"], [\"modified\", \"b.py\"], [\"deleted\", \"c.py\"]]" ∧
    (∀ (c : ChangeEvent) (cs : List ChangeEvent),
      (c :: cs).map changeJsonEntry = [c.1.raw_str, c.2] :: cs.map changeJsonEntry) := by
  exact ⟨rfl, rfl, rfl, fun _ _ => rfl⟩

/-- Outside world seen by one `cli` invocation (src/watchfiles/cli.py):
whether `import_string` on the target raises `ImportError` (and with which
message), and which filesystem paths exist. -/
structure CliWorld where
  importError : Option String
  pathExists : String → Bool

/-- Outcome of the `cli` setup phase: either `sys.exit(status)` after
printing a line to stderr, or reaching the `run_process` call with the
resolved paths. -/
inductive CliResult
  | setupExit (status : Nat) (stderrLine : String)
  | ranRunProcess (paths : List String)
deriving DecidableEq

def CliResult.ranLoop : CliResult → Bool
  | .ranRunProcess _ => true
  | _ => false

def CliResult.exitStatus : CliResult → Option Nat
  | .setupExit s _ => some s
  | _ => none

/-- Embedding of `resolve_path` (src/watchfiles/cli.py lines 35-40): raise
`FileNotFoundError(path)` when the path does not exist, else resolve it. -/
def resolve_path (pathExists : String → Bool) (p : String) : Except String String :=
  if pathExists p then Except.ok p else Except.error p

/-- The list comprehension `[resolve_path(p) for p in paths]` of cli.py line
156: the first raising path aborts the whole comprehension. -/
def resolve_all (pathExists : String → Bool) : List String → Except String (List String)
  | [] => Except.ok []
  | p :: ps =>
    match resolve_path pathExists p with
    | Except.error e => Except.error e
    | Except.ok rp =>
      match resolve_all pathExists ps with
      | Except.error e => Except.error e
      | Except.ok rps => Except.ok (rp :: rps)

/-- Embedding of the setup phase of `cli` (src/watchfiles/cli.py lines
148-201): first `import_string` on the target — an `ImportError` is printed
to stderr and the process exits with status 1; then every watch path is
resolved — a `FileNotFoundError` is printed to stderr and the process exits
with status 1; only when both succeed does control reach `run_process`. -/
def cli (w : CliWorld) (paths : List String) : CliResult :=
  match w.importError with
  | some e => CliResult.setupExit 1 ("ImportError: " ++ e)
  | none =>
    match resolve_all w.pathExists paths with
    | Except.error p => CliResult.setupExit 1 ("path \"" ++ p ++ "\" does not exist")
    | Except.ok rps => CliResult.ranRunProcess rps

lemma resolve_all_error_of_missing (pe : String → Bool) :
    ∀ paths : List String, (∃ p ∈ paths, pe p = false) →
      ∃ q, resolve_all pe paths = Except.error q := by
  intro paths
  induction paths with
  | nil => rintro ⟨p, hp, _⟩; cases hp
  | cons a ps ih =>
    rintro ⟨p, hp, hpe⟩
    by_cases ha : pe a = true
    · have hps : ∃ p ∈ ps, pe p = false := by
        rcases List.mem_cons.mp hp with h | h
        · subst h; rw [hpe] at ha; cases ha
        · exact ⟨p, h, hpe⟩
      obtain ⟨q, hq⟩ := ih hps
      exact ⟨q, by simp [resolve_all, resolve_path, ha, hq]⟩
    · exact ⟨a, by simp [resolve_all, resolve_path, ha]⟩

/-- C8: if the target cannot be imported or some watch path does not exist,
`cli` reports the error on stderr and exits with status 1 before the
supervisor loop starts, so `run_process` is never invoked. -/
theorem C8_setup_failures_exit_before_loop (w : CliWorld) (paths : List String)
    (h : w.importError ≠ none ∨ ∃ p ∈ paths, w.pathExists p = false) :
    (cli w paths).ranLoop = false ∧ (cli w paths).exitStatus = some 1 ∧
    ∃ msg, cli w paths = CliResult.setupExit 1 msg := by
  rcases himp : w.importError with _ | e
  · rcases h with h | h
    · exact absurd himp h
    · obtain ⟨q, hq⟩ := resolve_all_error_of_missing w.pathExists paths h
      refine ⟨?_, ?_, ⟨"path \"" ++ q ++ "\" does not exist", ?_⟩⟩ <;>
        simp [cli, himp, hq, CliResult.ranLoop, CliResult.exitStatus]
  · refine ⟨?_, ?_, ⟨"ImportError: " ++ e, ?_⟩⟩ <;>
      simp [cli, himp, CliResult.ranLoop, CliResult.exitStatus]

/-- Witness for C8: a world where the import succeeds but the single watch
path does not exist. -/
theorem C8_setup_failures_exit_before_loop_witness :
    (cli ⟨none, fun _ => false⟩ ["/x/y/z"]).ranLoop = false ∧
    (cli ⟨none, fun _ => false⟩ ["/x/y/z"]).exitStatus = some 1 ∧
    ∃ msg, cli ⟨none, fun _ => false⟩ ["/x/y/z"] = CliResult.setupExit 1 msg :=
  C8_setup_failures_exit_before_loop ⟨none, fun _ => false⟩ ["/x/y/z"]
    (Or.inr ⟨"/x/y/z", List.mem_cons_self _ _, rfl⟩)

/-- One iteration's outcome of `p.check()` in the `watch` loop of
src/watchgod/main.py: either a (possibly empty) set of changes, or a
`KeyboardInterrupt` raised during the iteration. -/
inductive CheckResult
  | changes (cs : List ChangeEvent)
  | keyboardInterrupt

/-- How the `while True` body of `watch` (src/watchgod/main.py lines 19-30)
ended: a `KeyboardInterrupt` escaped the loop, or the supplied script of
poll outcomes was exhausted. -/
inductive LoopEnd
  | interrupted
  | exhausted
deriving DecidableEq

/-- The `while True` body of `watch` (src/watchgod/main.py lines 19-30),
without the surrounding try/except: yields each non-empty change set
(`if changes: yield changes`) and propagates a raised `KeyboardInterrupt`. -/
def watchBody : List CheckResult → List (List ChangeEvent) × LoopEnd
  | [] => ([], LoopEnd.exhausted)
  | CheckResult.changes cs :: rest =>
    let r := watchBody rest
    (if cs.isEmpty then r.1 else cs :: r.1, r.2)
  | CheckResult.keyboardInterrupt :: _ => ([], LoopEnd.interrupted)

/-- Embedding of `watch` (src/watchgod/main.py lines 16-32): the loop body
wrapped in `try: ... except KeyboardInterrupt: pass`. The second component
is what escapes to the caller: `Except.error ()` would be a propagated
`KeyboardInterrupt`; the except-pass clause turns an interrupted loop into
a normal return. -/
def watchgod_watch (script : List CheckResult) : List (List ChangeEvent) × Except Unit Unit :=
  match watchBody script with
  | (ys, LoopEnd.interrupted) => (ys, Except.ok ())
  | (ys, LoopEnd.exhausted) => (ys, Except.ok ())

/-- C9: a `KeyboardInterrupt` raised during the watch loop is absorbed: the
generator returns normally with the batches yielded before the interrupt,
and no error propagates to the caller. -/
theorem C9_interrupt_absorbed (script : List CheckResult) (ys : List (List ChangeEvent))
    (h : watchBody script = (ys, LoopEnd.interrupted)) :
    watchgod_watch script = (ys, Except.ok ()) ∧
    (watchgod_watch script).2 ≠ Except.error () := by
  have hw : watchgod_watch script = (ys, Except.ok ()) := by
    simp [watchgod_watch, h]
  exact ⟨hw, by rw [hw]; simp⟩

/-- Witness for C9: one non-empty poll result followed by an interrupt. -/
theorem C9_interrupt_absorbed_witness :
    watchgod_watch [CheckResult.changes batchF, CheckResult.keyboardInterrupt] =
      ([batchF], Except.ok ()) :=
  (C9_interrupt_absorbed [CheckResult.changes batchF, CheckResult.keyboardInterrupt]
    [batchF] rfl).1

/-- Default parameter values of `watch` in src/watchgod/main.py line 16:
`debounce=400, min_sleep=100` (milliseconds). -/
structure WatchDefaults where
  debounce : Nat
  min_sleep : Nat
deriving DecidableEq

/-- The defaults the source declares on src/watchgod/main.py line 16. -/
def watchgod_watch_defaults : WatchDefaults := ⟨400, 100⟩

/-- C10 is false as stated: the debounce knob of `watch`
(src/watchgod/main.py line 16) defaults to 400 ms, which is not
approximately 1600 — it is exactly a quarter of 1600, less than half of
it. -/
theorem C10_counterexample :
    watchgod_watch_defaults.debounce = 400 ∧
    watchgod_watch_defaults.debounce * 4 = 1600 ∧
    ¬(1600 ≤ watchgod_watch_defaults.debounce * 2) := by
  decide

/-- C10 (amended): the debounce knob defaults to 400 ms, and the min_sleep
polling-granularity knob defaults to 100 ms, which lies in the 50–400 ms
range and is smaller than the debounce default. -/
theorem C10_defaults :
    watchgod_watch_defaults.debounce = 400 ∧
    watchgod_watch_defaults.min_sleep = 100 ∧
    50 ≤ watchgod_watch_defaults.min_sleep ∧
    watchgod_watch_defaults.min_sleep ≤ 400 ∧
    watchgod_watch_defaults.min_sleep < watchgod_watch_defaults.debounce := by
  decide

end Watchfiles
